import Mathlib

/-!
Shallow embedding of the DataAxleVisualizationAnalysis scripts.

Source files:
- src/unnamed/part_000 : updateStoreInfo (the update-variant reconciler);
- src/script.js        : processEmails (the enrichment-variant reconciler)
                         and verifyStoreInfo (the aggregator / reporter).

The MongoDB collection data_axle_users is modelled as an association list
from email keys to documents.  Per-record storage and network calls may
fail; failures are injected through Boolean oracles indexed by the
1-based row position, matching the try/catch structure of the loops.
Time (new Date()) is an abstract Nat passed in as a parameter, and the
opaque Data Axle API response payload is a String supplied by an oracle.
-/

set_option autoImplicit false

namespace DataAxle

/-- One parsed CSV row, as produced by csv-parser from customer_emails.csv.
A column that is absent from the file is modelled as none; a present but
empty cell is some "". -/
structure InputRow where
  customer_email : Option String
  external_store_id : Option String
  name : Option String
deriving DecidableEq, Repr

/-- One document of the data_axle_users collection (the email key is held
by the enclosing association list).  external_store_id, store_name and
store_info_updated_at are the fields written by updateStoreInfo; data and
processedAt are the fields written by processEmails; rest stands for any
other fields of a pre-existing document, which no script in scope touches. -/
structure StoredDoc where
  external_store_id : Option String
  store_name : Option String
  store_info_updated_at : Option Nat
  data : Option String
  processedAt : Option Nat
  rest : List (String × String)
deriving DecidableEq, Repr

/-- Character-wise model of the JavaScript String.prototype.toLowerCase
call used on emails. -/
def jsToLower (s : String) : String :=
  String.mk (s.data.map Char.toLower)

/-- Model of the JavaScript String.prototype.trim call: strip leading and
trailing whitespace. -/
def jsTrim (s : String) : String :=
  String.mk (((s.data.dropWhile Char.isWhitespace).reverse.dropWhile
    Char.isWhitespace).reverse)

/-- The collection: an association list from email to document. -/
abbrev Store : Type := List (String × StoredDoc)

/-- collection.findOne with filter by email equality: first matching document. -/
def findOne (store : Store) (email : String) : Option StoredDoc :=
  (List.find? (fun p => p.1 == email) store).map Prod.snd

/-- collection.updateOne: replace the document of the first entry whose key
matches email (no upsert: a missing key inserts nothing). -/
def storeUpdate (store : Store) (email : String) (d : StoredDoc) : Store :=
  match store with
  | [] => []
  | (k, v) :: tl =>
      if k == email then (k, d) :: tl else (k, v) :: storeUpdate tl email d

/-- The $set document built by updateStoreInfo: some v means the field is
present in updateData with value v, none means it is absent. -/
structure UpdateDoc where
  external_store_id : Option String
  store_name : Option String
  store_info_updated_at : Option Nat
deriving DecidableEq, Repr

/-- Semantics of a $set merge-patch: each field named in the update document
is overwritten, every other field of the document is left unchanged. -/
def applySet (u : UpdateDoc) (d : StoredDoc) : StoredDoc :=
  { d with
    external_store_id :=
      match u.external_store_id with
      | some v => some v
      | none => d.external_store_id
    store_name :=
      match u.store_name with
      | some v => some v
      | none => d.store_name
    store_info_updated_at :=
      match u.store_info_updated_at with
      | some v => some v
      | none => d.store_info_updated_at }

/-- The updateData document built for a matched row in updateStoreInfo
(part_000 lines 64-78): external_store_id only when the trimmed
external_store_id cell is truthy (present and non-empty), store_name only
when the trimmed name cell is truthy, store_info_updated_at always set to
the current time. -/
def buildUpdateDoc (now : Nat) (row : InputRow) : UpdateDoc :=
  { external_store_id :=
      match row.external_store_id.map jsTrim with
      | some s => if s = "" then none else some s
      | none => none
    store_name :=
      match row.name.map jsTrim with
      | some s => if s = "" then none else some s
      | none => none
    store_info_updated_at := some now }

/-- The per-run counters of updateStoreInfo.  noopRecords counts the rows
that reach the updateOne call but whose patch changes nothing, i.e. the
rows logged as "No changes needed" on the modifiedCount = 0 branch; the
script prints it but keeps no counter for it. -/
structure UpdStats where
  totalProcessed : Nat
  updatedRecords : Nat
  notFoundRecords : Nat
  errorRecords : Nat
  noopRecords : Nat
deriving DecidableEq, Repr

/-- Storage calls issued by updateStoreInfo, tagged with the 1-based row
number (the value of totalProcessed when the call is made). -/
inductive UpdEvent where
  | lookup (i : Nat) (email : String)
  | update (i : Nat) (email : String) (u : UpdateDoc)
deriving DecidableEq, Repr

/-- The normalization applied to customer_email by updateStoreInfo:
row.customer_email?.toLowerCase().trim(). -/
def normEmailUpd (row : InputRow) : Option String :=
  row.customer_email.map (fun s => jsTrim (jsToLower s))

/-- One iteration of the updateStoreInfo row loop (part_000 lines 46-108).
lf i (resp. uf i) true injects a thrown error from the findOne (resp.
updateOne) call of row i; the surrounding catch then increments
errorRecords.  Returns the new store, the new counters and the storage
calls issued for this row. -/
def updStep (now : Nat) (lf uf : Nat → Bool) (store : Store) (stats : UpdStats)
    (row : InputRow) : Store × UpdStats × List UpdEvent :=
  let i := stats.totalProcessed + 1
  let stats1 := { stats with totalProcessed := i }
  match normEmailUpd row with
  | none =>
      (store, { stats1 with errorRecords := stats1.errorRecords + 1 }, [])
  | some email =>
      if email = "" then
        (store, { stats1 with errorRecords := stats1.errorRecords + 1 }, [])
      else if lf i then
        (store, { stats1 with errorRecords := stats1.errorRecords + 1 },
          [.lookup i email])
      else
        match findOne store email with
        | none =>
            (store, { stats1 with notFoundRecords := stats1.notFoundRecords + 1 },
              [.lookup i email])
        | some d =>
            let u := buildUpdateDoc now row
            if uf i then
              (store, { stats1 with errorRecords := stats1.errorRecords + 1 },
                [.lookup i email, .update i email u])
            else
              let d2 := applySet u d
              let store2 := storeUpdate store email d2
              if d2 = d then
                (store2, { stats1 with noopRecords := stats1.noopRecords + 1 },
                  [.lookup i email, .update i email u])
              else
                (store2, { stats1 with updatedRecords := stats1.updatedRecords + 1 },
                  [.lookup i email, .update i email u])

/-- The updateStoreInfo row loop over a list of rows. -/
def updRun (now : Nat) (lf uf : Nat → Bool) :
    List InputRow → Store → UpdStats → Store × UpdStats × List UpdEvent
  | [], store, stats => (store, stats, [])
  | row :: tl, store, stats =>
      let r1 := updStep now lf uf store stats row
      let r2 := updRun now lf uf tl r1.1 r1.2.1
      (r2.1, r2.2.1, r1.2.2 ++ r2.2.2)

/-- The whole updateStoreInfo job: counters start at zero. -/
def updateStoreInfo (now : Nat) (lf uf : Nat → Bool) (rows : List InputRow)
    (store : Store) : Store × UpdStats × List UpdEvent :=
  updRun now lf uf rows store ⟨0, 0, 0, 0, 0⟩

/-- Events of one processEmails run (script.js lines 40-84), tagged with the
1-based row position (currentIndex).  rowStart i marks control entering the
in-range branch for row i; lookup, apiCall and insert mark the findOne, the
axios.post to the Data Axle API, and the insertOne being issued; delay marks
the fixed 1000 ms setTimeout after row i. -/
inductive EnrEvent where
  | rowStart (i : Nat)
  | lookup (i : Nat) (email : String)
  | apiCall (i : Nat) (email : String)
  | insert (i : Nat) (email : String)
  | delay (i : Nat)
deriving DecidableEq, Repr

/-- The 1-based row position carried by an enrichment event. -/
def evIdx : EnrEvent → Nat
  | .rowStart i => i
  | .lookup i _ => i
  | .apiCall i _ => i
  | .insert i _ => i
  | .delay i => i

/-- Extracts the position of a rowStart event. -/
def rowStartIdx : EnrEvent → Option Nat
  | .rowStart i => some i
  | _ => none

/-- Processing of one in-range row of processEmails (script.js lines 44-83).
A row with no customer_email field makes row.customer_email.toLowerCase()
throw; the per-row catch swallows it, so the row contributes only its
rowStart event.  lf, af and insf inject thrown errors from findOne, from
the API call and from insertOne of row i; apiData i is the opaque response
payload; now is the current time stored in processedAt.  The delay runs
only when the call and the insert both succeeded, since an exception jumps
to the catch past the setTimeout. -/
def enrStep (now : Nat) (lf af insf : Nat → Bool) (apiData : Nat → String)
    (i : Nat) (store : Store) (row : InputRow) : Store × List EnrEvent :=
  match row.customer_email with
  | none => (store, [.rowStart i])
  | some s =>
      let email := jsToLower s
      if lf i then (store, [.rowStart i, .lookup i email])
      else
        match findOne store email with
        | some _ => (store, [.rowStart i, .lookup i email])
        | none =>
            if af i then (store, [.rowStart i, .lookup i email, .apiCall i email])
            else if insf i then
              (store, [.rowStart i, .lookup i email, .apiCall i email, .insert i email])
            else
              (store ++ [(email,
                  { external_store_id := none, store_name := none,
                    store_info_updated_at := none, data := some (apiData i),
                    processedAt := some now, rest := [] })],
                [.rowStart i, .lookup i email, .apiCall i email, .insert i email,
                  .delay i])

/-- The range test currentIndex >= startRange && currentIndex <= endRange. -/
def inRange (startRange endRange i : Nat) : Bool :=
  decide (startRange ≤ i) && decide (i ≤ endRange)

/-- The processEmails row loop: i is the value of currentIndex before the
increment at the top of the iteration. -/
def enrGo (startRange endRange now : Nat) (lf af insf : Nat → Bool)
    (apiData : Nat → String) : Nat → List InputRow → Store → Store × List EnrEvent
  | _, [], store => (store, [])
  | i, row :: tl, store =>
      if inRange startRange endRange (i + 1) then
        let r1 := enrStep now lf af insf apiData (i + 1) store row
        let r2 := enrGo startRange endRange now lf af insf apiData (i + 1) tl r1.1
        (r2.1, r1.2 ++ r2.2)
      else
        enrGo startRange endRange now lf af insf apiData (i + 1) tl store

/-- The whole processEmails job over the materialized CSV rows. -/
def processEmails (startRange endRange now : Nat) (lf af insf : Nat → Bool)
    (apiData : Nat → String) (rows : List InputRow) (store : Store) :
    Store × List EnrEvent :=
  enrGo startRange endRange now lf af insf apiData 0 rows store

/-- The document-has-both test of verifyStoreInfo: both external_store_id
and store_name exist on the document. -/
def hasBothStoreInfo (d : StoredDoc) : Bool :=
  d.external_store_id.isSome && d.store_name.isSome

/-- The counts and the coverage figure of verifyStoreInfo (script.js lines
109-134): totalRecords = countDocuments(), withBothStoreInfo counts the
documents with both store fields, and the coverage percentage
(withBothStoreInfo / totalRecords) * 100 is computed only inside the
`if (withBothStoreInfo > 0)` guard; outside the guard no coverage line is
printed, modelled as none. -/
def verifyStoreInfo (store : Store) : Nat × Nat × Option ℚ :=
  let totalRecords := store.length
  let withBothStoreInfo := (store.filter (fun p => hasBothStoreInfo p.2)).length
  let coverage : Option ℚ :=
    if withBothStoreInfo > 0 then
      some (((withBothStoreInfo : ℚ) / (totalRecords : ℚ)) * 100)
    else none
  (totalRecords, withBothStoreInfo, coverage)

/-- Sum of the four outcome counters of one run. -/
def outcomeSum (s : UpdStats) : Nat :=
  s.updatedRecords + s.notFoundRecords + s.errorRecords + s.noopRecords

theorem updStep_counts (now : Nat) (lf uf : Nat → Bool) (store : Store)
    (stats : UpdStats) (row : InputRow) :
    (updStep now lf uf store stats row).2.1.totalProcessed = stats.totalProcessed + 1
    ∧ outcomeSum (updStep now lf uf store stats row).2.1 = outcomeSum stats + 1 := by
  unfold updStep outcomeSum
  cases hm : normEmailUpd row
  · simp
    omega
  · rename_i email
    by_cases he : email = ""
    · simp [he]
      omega
    · simp only [he, if_false]
      cases hl : lf (stats.totalProcessed + 1)
      · simp only [Bool.false_eq_true, if_false]
        cases hf : findOne store email
        · simp
          omega
        · rename_i d
          simp only []
          cases hu : uf (stats.totalProcessed + 1)
          · simp only [Bool.false_eq_true, if_false]
            by_cases hd : applySet (buildUpdateDoc now row) d = d
            · simp [hd]
              omega
            · simp [hd]
              omega
          · simp
            omega
      · simp
        omega

theorem updRun_counts (now : Nat) (lf uf : Nat → Bool) :
    ∀ (rows : List InputRow) (store : Store) (stats : UpdStats),
    (updRun now lf uf rows store stats).2.1.totalProcessed
        = stats.totalProcessed + rows.length
    ∧ outcomeSum (updRun now lf uf rows store stats).2.1
        = outcomeSum stats + rows.length := by
  intro rows
  induction rows with
  | nil => intro store stats; simp [updRun]
  | cons row tl ih =>
      intro store stats
      have hstep := updStep_counts now lf uf store stats row
      have htl := ih (updStep now lf uf store stats row).1
        (updStep now lf uf store stats row).2.1
      simp only [updRun, List.length_cons]
      omega

theorem storeUpdate_keys (store : Store) (email : String) (d : StoredDoc) :
    (storeUpdate store email d).map Prod.fst = store.map Prod.fst := by
  induction store with
  | nil => rfl
  | cons hd tl ih =>
      unfold storeUpdate
      by_cases h : hd.1 == email
      · simp [h]
      · simp only [h]
        simp [ih]

theorem updStep_keys (now : Nat) (lf uf : Nat → Bool) (store : Store)
    (stats : UpdStats) (row : InputRow) :
    (updStep now lf uf store stats row).1.map Prod.fst = store.map Prod.fst := by
  unfold updStep
  cases hm : normEmailUpd row
  · simp
  · rename_i email
    by_cases he : email = ""
    · simp [he]
    · simp only [he, if_false]
      cases hl : lf (stats.totalProcessed + 1)
      · simp only [Bool.false_eq_true, if_false]
        cases hf : findOne store email
        · simp
        · rename_i d
          simp only []
          cases hu : uf (stats.totalProcessed + 1)
          · simp only [Bool.false_eq_true, if_false]
            by_cases hd : applySet (buildUpdateDoc now row) d = d
            · simp [hd, storeUpdate_keys]
            · simp [hd, storeUpdate_keys]
          · simp
      · simp

theorem updRun_keys (now : Nat) (lf uf : Nat → Bool) :
    ∀ (rows : List InputRow) (store : Store) (stats : UpdStats),
    (updRun now lf uf rows store stats).1.map Prod.fst = store.map Prod.fst := by
  intro rows
  induction rows with
  | nil => intro store stats; simp [updRun]
  | cons row tl ih =>
      intro store stats
      simp only [updRun]
      rw [ih (updStep now lf uf store stats row).1 (updStep now lf uf store stats row).2.1]
      exact updStep_keys now lf uf store stats row

/-- Input row of the C1 counterexample: a valid email and no optional fields. -/
def c1Row : InputRow := ⟨some "a", none, none⟩

/-- Initial store of the C1 counterexample: the matching document already
carries store_info_updated_at equal to the current run time, so the $set
patch changes nothing and modifiedCount is 0. -/
def c1Store : Store := [("a", ⟨none, none, some 0, none, none, []⟩)]

/-- Claim C1, as stated, is false on the code: on a run over one row whose
email matches a stored document that the patch does not change (the store
already holds store_info_updated_at = now and the row has no optional
fields), the modifiedCount = 0 branch of updateStoreInfo increments none
of updatedRecords, notFoundRecords, errorRecords, so at job end
totalProcessed = 1 while the three counters sum to 0. -/
theorem c1_counterexample :
    ¬ ((updateStoreInfo 0 (fun _ => false) (fun _ => false) [c1Row] c1Store).2.1.totalProcessed
      = (updateStoreInfo 0 (fun _ => false) (fun _ => false) [c1Row] c1Store).2.1.updatedRecords
        + (updateStoreInfo 0 (fun _ => false) (fun _ => false) [c1Row] c1Store).2.1.notFoundRecords
        + (updateStoreInfo 0 (fun _ => false) (fun _ => false) [c1Row] c1Store).2.1.errorRecords) := by
  decide

/-- Claim C1 (amended): for the update-variant reconciler, at job end the
counters satisfy totalProcessed = updated + notFound + errors + noops,
where noops counts the matched rows whose merge-patch changed no stored
field (the rows logged as needing no changes); for every input sequence,
every initial store state and every pattern of injected per-record storage
faults. -/
theorem c1_totalProcessed_partition (now : Nat) (lf uf : Nat → Bool)
    (rows : List InputRow) (store : Store) :
    (updateStoreInfo now lf uf rows store).2.1.totalProcessed
      = (updateStoreInfo now lf uf rows store).2.1.updatedRecords
        + (updateStoreInfo now lf uf rows store).2.1.notFoundRecords
        + (updateStoreInfo now lf uf rows store).2.1.errorRecords
        + (updateStoreInfo now lf uf rows store).2.1.noopRecords := by
  have h := updRun_counts now lf uf rows store ⟨0, 0, 0, 0, 0⟩
  unfold updateStoreInfo
  unfold outcomeSum at h
  simp only [] at h
  omega

/-- Closed instance of the amended C1 on a concrete two-row run. -/
theorem c1_totalProcessed_partition_witness :
    (updateStoreInfo 0 (fun _ => false) (fun _ => false) [c1Row, ⟨none, none, none⟩] c1Store).2.1.totalProcessed
      = (updateStoreInfo 0 (fun _ => false) (fun _ => false) [c1Row, ⟨none, none, none⟩] c1Store).2.1.updatedRecords
        + (updateStoreInfo 0 (fun _ => false) (fun _ => false) [c1Row, ⟨none, none, none⟩] c1Store).2.1.notFoundRecords
        + (updateStoreInfo 0 (fun _ => false) (fun _ => false) [c1Row, ⟨none, none, none⟩] c1Store).2.1.errorRecords
        + (updateStoreInfo 0 (fun _ => false) (fun _ => false) [c1Row, ⟨none, none, none⟩] c1Store).2.1.noopRecords :=
  c1_totalProcessed_partition 0 (fun _ => false) (fun _ => false)
    [c1Row, ⟨none, none, none⟩] c1Store

/-- Claim C2: in the update-variant, for every input row whose normalized
email matches a stored record, the partial-update document applied via
set-merge contains external_store_id exactly when the trimmed
external_store_id cell is non-empty (with that trimmed value), store_name
exactly when the trimmed name cell is non-empty, and always contains
store_info_updated_at set to the current time; the new store applies that
document to the matched record by set-merge, and the fields not named in
the document, as well as data, processedAt and all other fields, keep
their stored values. -/
theorem c2_matched_partial_update (now : Nat) (lf uf : Nat → Bool)
    (store : Store) (stats : UpdStats) (row : InputRow) (email : String)
    (d : StoredDoc)
    (hmail : normEmailUpd row = some email) (hne : email ≠ "")
    (hlf : lf (stats.totalProcessed + 1) = false)
    (huf : uf (stats.totalProcessed + 1) = false)
    (hfind : findOne store email = some d) :
    (∀ v : String, (buildUpdateDoc now row).external_store_id = some v ↔
        row.external_store_id.map jsTrim = some v ∧ v ≠ "")
    ∧ (∀ v : String, (buildUpdateDoc now row).store_name = some v ↔
        row.name.map jsTrim = some v ∧ v ≠ "")
    ∧ (buildUpdateDoc now row).store_info_updated_at = some now
    ∧ (updStep now lf uf store stats row).1
        = storeUpdate store email (applySet (buildUpdateDoc now row) d)
    ∧ ((buildUpdateDoc now row).external_store_id = none →
        (applySet (buildUpdateDoc now row) d).external_store_id
          = d.external_store_id)
    ∧ ((buildUpdateDoc now row).store_name = none →
        (applySet (buildUpdateDoc now row) d).store_name = d.store_name)
    ∧ (applySet (buildUpdateDoc now row) d).data = d.data
    ∧ (applySet (buildUpdateDoc now row) d).processedAt = d.processedAt
    ∧ (applySet (buildUpdateDoc now row) d).rest = d.rest
    ∧ (applySet (buildUpdateDoc now row) d).store_info_updated_at = some now := by
  refine ⟨?_, ?_, ?_, ?_, ?_, ?_, ?_, ?_, ?_, ?_⟩
  · intro v
    unfold buildUpdateDoc
    cases hx : row.external_store_id
    · simp
    · rename_i s
      by_cases h : jsTrim s = ""
      · simp [h]
        intro hv
        simp [← hv, h]
      · simp [h]
        intro hv
        rw [← hv]
        exact h
  · intro v
    unfold buildUpdateDoc
    cases hx : row.name
    · simp
    · rename_i s
      by_cases h : jsTrim s = ""
      · simp [h]
        intro hv
        simp [← hv, h]
      · simp [h]
        intro hv
        rw [← hv]
        exact h
  · rfl
  · unfold updStep
    rw [hmail]
    simp only [hne, if_false, hlf, Bool.false_eq_true, if_false, hfind, huf]
    by_cases hd : applySet (buildUpdateDoc now row) d = d
    · simp [hd]
    · simp [hd]
  · intro h
    unfold applySet
    rw [h]
  · intro h
    unfold applySet
    rw [h]
  · rfl
  · rfl
  · rfl
  · unfold applySet buildUpdateDoc
    rfl

/-- Input row of the C2 witness, the scenario row of the spec. -/
def c2Row : InputRow := ⟨some "A@X.com", some "S1", some "Acme"⟩

/-- Stored document of the C2 witness: no fields set yet. -/
def c2Doc : StoredDoc := ⟨none, none, none, none, none, []⟩

/-- Closed instance of C2 on the scenario row of the spec: the update
document carries both store fields and the timestamp, and the store is
rewritten by set-merge at the matched email. -/
theorem c2_matched_partial_update_witness :
    (buildUpdateDoc 5 c2Row).external_store_id = some "S1"
    ∧ (buildUpdateDoc 5 c2Row).store_name = some "Acme"
    ∧ (buildUpdateDoc 5 c2Row).store_info_updated_at = some 5
    ∧ (updStep 5 (fun _ => false) (fun _ => false) [("a@x.com", c2Doc)]
          ⟨0, 0, 0, 0, 0⟩ c2Row).1
        = storeUpdate [("a@x.com", c2Doc)] "a@x.com"
            (applySet (buildUpdateDoc 5 c2Row) c2Doc) := by
  have h := c2_matched_partial_update 5 (fun _ => false) (fun _ => false)
    [("a@x.com", c2Doc)] ⟨0, 0, 0, 0, 0⟩ c2Row "a@x.com" c2Doc
    (by decide) (by decide) rfl rfl (by decide)
  exact ⟨(h.1 "S1").mpr (by decide), (h.2.1 "Acme").mpr (by decide),
    h.2.2.1, h.2.2.2.1⟩

/-- Input row of the C3 witness. -/
def c3Row : InputRow := ⟨some "b", some "S", none⟩

/-- Claim C3: the update-variant never inserts a record.  For a row whose
normalized email has no matching stored record, the step leaves the store
unchanged, increments notFoundRecords, and issues only the single lookup
(no update call); and a whole updateStoreInfo run leaves the list of
stored email keys unchanged, for every input sequence, initial store and
fault pattern. -/
theorem c3_never_creates (now : Nat) (lf uf : Nat → Bool)
    (rows : List InputRow) (store store2 : Store) (stats : UpdStats)
    (row : InputRow) (email : String)
    (hmail : normEmailUpd row = some email) (hne : email ≠ "")
    (hlf : lf (stats.totalProcessed + 1) = false)
    (hfind : findOne store2 email = none) :
    (updStep now lf uf store2 stats row
        = (store2,
            ⟨stats.totalProcessed + 1, stats.updatedRecords,
              stats.notFoundRecords + 1, stats.errorRecords, stats.noopRecords⟩,
            [.lookup (stats.totalProcessed + 1) email]))
    ∧ (updateStoreInfo now lf uf rows store).1.map Prod.fst
        = store.map Prod.fst := by
  constructor
  · unfold updStep
    rw [hmail]
    simp only [hne, if_false, hlf, Bool.false_eq_true, if_false, hfind]
  · unfold updateStoreInfo
    exact updRun_keys now lf uf rows store ⟨0, 0, 0, 0, 0⟩

/-- Closed instance of C3: a one-row run over an email absent from a
one-document store counts it as not found, issues only the lookup, and
leaves the stored keys as they were. -/
theorem c3_never_creates_witness :
    (updStep 0 (fun _ => false) (fun _ => false) [("a", c2Doc)]
        ⟨0, 0, 0, 0, 0⟩ c3Row
      = ([("a", c2Doc)], ⟨1, 0, 1, 0, 0⟩, [.lookup 1 "b"]))
    ∧ (updateStoreInfo 0 (fun _ => false) (fun _ => false) [c3Row]
        [("a", c2Doc)]).1.map Prod.fst = [("a", c2Doc)].map Prod.fst :=
  c3_never_creates 0 (fun _ => false) (fun _ => false) [c3Row]
    [("a", c2Doc)] [("a", c2Doc)] ⟨0, 0, 0, 0, 0⟩ c3Row "b"
    (by decide) (by decide) rfl (by decide)

theorem enrStep_evIdx (now : Nat) (lf af insf : Nat → Bool)
    (apiData : Nat → String) (i : Nat) (store : Store) (row : InputRow) :
    ∀ ev ∈ (enrStep now lf af insf apiData i store row).2, evIdx ev = i := by
  unfold enrStep
  cases hm : row.customer_email
  · simp [evIdx]
  · rename_i s
    simp only []
    cases hl : lf i
    · simp only [Bool.false_eq_true, if_false]
      cases hf : findOne store (jsToLower s)
      · simp only []
        cases ha : af i
        · simp only [Bool.false_eq_true, if_false]
          cases hi : insf i
          · simp [evIdx]
          · simp [evIdx]
        · simp [evIdx]
      · simp [evIdx]
    · simp [evIdx]

theorem enrStep_rowStarts (now : Nat) (lf af insf : Nat → Bool)
    (apiData : Nat → String) (i : Nat) (store : Store) (row : InputRow) :
    (enrStep now lf af insf apiData i store row).2.filterMap rowStartIdx = [i] := by
  unfold enrStep
  cases hm : row.customer_email
  · simp [rowStartIdx]
  · rename_i s
    simp only []
    cases hl : lf i
    · simp only [Bool.false_eq_true, if_false]
      cases hf : findOne store (jsToLower s)
      · simp only []
        cases ha : af i
        · simp only [Bool.false_eq_true, if_false]
          cases hi : insf i
          · simp [rowStartIdx, List.filterMap_cons]
          · simp [rowStartIdx, List.filterMap_cons]
        · simp [rowStartIdx, List.filterMap_cons]
      · simp [rowStartIdx, List.filterMap_cons]
    · simp [rowStartIdx, List.filterMap_cons]

theorem enrGo_mem_bounds (sr er now : Nat) (lf af insf : Nat → Bool)
    (apiData : Nat → String) :
    ∀ (rows : List InputRow) (i : Nat) (store : Store),
    ∀ ev ∈ (enrGo sr er now lf af insf apiData i rows store).2,
      inRange sr er (evIdx ev) = true ∧ i + 1 ≤ evIdx ev
        ∧ evIdx ev ≤ i + rows.length := by
  intro rows
  induction rows with
  | nil =>
      intro i store ev hev
      simp [enrGo] at hev
  | cons row tl ih =>
      intro i store ev hev
      simp only [enrGo] at hev
      by_cases hr : inRange sr er (i + 1) = true
      · rw [if_pos hr] at hev
        simp only [List.mem_append] at hev
        rcases hev with hev | hev
        · have h1 := enrStep_evIdx now lf af insf apiData (i + 1) store row ev hev
          rw [h1]
          refine ⟨hr, by omega, by simp only [List.length_cons]; omega⟩
        · have h2 := ih (i + 1)
            (enrStep now lf af insf apiData (i + 1) store row).1 ev hev
          refine ⟨h2.1, by omega, by have := h2.2.2; simp only [List.length_cons]; omega⟩
      · rw [if_neg hr] at hev
        have h2 := ih (i + 1) store ev hev
        refine ⟨h2.1, by omega, by have := h2.2.2; simp only [List.length_cons]; omega⟩

theorem enrGo_rowStarts (sr er now : Nat) (lf af insf : Nat → Bool)
    (apiData : Nat → String) :
    ∀ (rows : List InputRow) (i : Nat) (store : Store),
    (enrGo sr er now lf af insf apiData i rows store).2.filterMap rowStartIdx
      = (List.range' (i + 1) rows.length).filter (inRange sr er) := by
  intro rows
  induction rows with
  | nil =>
      intro i store
      simp [enrGo]
  | cons row tl ih =>
      intro i store
      simp only [enrGo, List.length_cons]
      rw [List.range'_succ]
      by_cases hr : inRange sr er (i + 1) = true
      · rw [if_pos hr]
        rw [List.filterMap_append]
        rw [enrStep_rowStarts now lf af insf apiData (i + 1) store row]
        rw [ih (i + 1) (enrStep now lf af insf apiData (i + 1) store row).1]
        rw [List.filter_cons_of_pos hr]
        rfl
      · rw [if_neg hr]
        rw [ih (i + 1) store]
        rw [List.filter_cons_of_neg (by simp [hr])]

/-- Claim C4: the enrichment-variant never issues an external matching-API
call for an email already present in storage at that row's lookup:
whenever the lookup finds an existing record, the row is skipped with no
API call and no insert, and the store is unchanged. -/
theorem c4_skip_if_exists (now : Nat) (lf af insf : Nat → Bool)
    (apiData : Nat → String) (i : Nat) (store : Store) (row : InputRow)
    (s : String) (d : StoredDoc)
    (hmail : row.customer_email = some s) (hlf : lf i = false)
    (hfind : findOne store (jsToLower s) = some d) :
    enrStep now lf af insf apiData i store row
      = (store, [.rowStart i, .lookup i (jsToLower s)]) := by
  unfold enrStep
  rw [hmail]
  simp only [hlf, Bool.false_eq_true, if_false, hfind]

/-- Closed instance of C4: the email b is already stored, so its row
produces only the rowStart and the lookup; no call, no insert. -/
theorem c4_skip_if_exists_witness :
    enrStep 0 (fun _ => false) (fun _ => false) (fun _ => false)
        (fun _ => "P") 1 [("b", c2Doc)] ⟨some "B", none, none⟩
      = ([("b", c2Doc)], [.rowStart 1, .lookup 1 (jsToLower "B")]) :=
  c4_skip_if_exists 0 (fun _ => false) (fun _ => false) (fun _ => false)
    (fun _ => "P") 1 [("b", c2Doc)] ⟨some "B", none, none⟩ "B" c2Doc
    rfl rfl (by decide)

/-- Claim C5: the enrichment-variant touches exactly the rows whose 1-based
position lies in the inclusive range: every event of a run (lookup, API
call, insert, delay) belongs to a row position inside the range and inside
the input, and the rows that enter processing are exactly the in-range
positions, each once, in order; an endRange beyond the input length simply
leaves the row-position list bounded by the input length. -/
theorem c5_range_discipline (sr er now : Nat) (lf af insf : Nat → Bool)
    (apiData : Nat → String) (rows : List InputRow) (store : Store) :
    (∀ ev ∈ (processEmails sr er now lf af insf apiData rows store).2,
        inRange sr er (evIdx ev) = true ∧ 1 ≤ evIdx ev ∧ evIdx ev ≤ rows.length)
    ∧ (processEmails sr er now lf af insf apiData rows store).2.filterMap
          rowStartIdx
        = (List.range' 1 rows.length).filter (inRange sr er) := by
  constructor
  · intro ev hev
    have h := enrGo_mem_bounds sr er now lf af insf apiData rows 0 store ev hev
    exact ⟨h.1, by omega, by have := h.2.2; omega⟩
  · exact enrGo_rowStarts sr er now lf af insf apiData rows 0 store

/-- Rows of the C5 witness: three rows, two of them enrichable. -/
def c5Rows : List InputRow :=
  [⟨some "x", none, none⟩, ⟨none, none, none⟩, ⟨some "y", none, none⟩]

/-- Closed instance of C5, the scenario of the spec with the range 1..400
exceeding the input length: all three rows enter processing exactly once,
in order. -/
theorem c5_range_discipline_witness :
    (processEmails 1 400 0 (fun _ => false) (fun _ => false) (fun _ => false)
        (fun _ => "P") c5Rows []).2.filterMap rowStartIdx = [1, 2, 3] := by
  have h := c5_range_discipline 1 400 0 (fun _ => false) (fun _ => false)
    (fun _ => false) (fun _ => "P") c5Rows []
  rw [h.2]
  rfl

/-- Extracts the row number and email key of an update-variant lookup call. -/
def lookupKey : UpdEvent → Option (Nat × String)
  | .lookup i e => some (i, e)
  | _ => none

/-- Claim C6: in the update-variant, a row whose lowercased trimmed email
is missing or empty increments errorRecords and issues no storage call at
all; any other row issues exactly one lookup, keyed by the lowercased
trimmed email, whatever the store contents and whatever faults are
injected. -/
theorem c6_validate_then_single_lookup (now : Nat) (lf uf : Nat → Bool)
    (store : Store) (stats : UpdStats) (row : InputRow) :
    ((normEmailUpd row = none ∨ normEmailUpd row = some "") →
      updStep now lf uf store stats row
        = (store,
            ⟨stats.totalProcessed + 1, stats.updatedRecords,
              stats.notFoundRecords, stats.errorRecords + 1, stats.noopRecords⟩,
            []))
    ∧ (∀ email : String, normEmailUpd row = some email → email ≠ "" →
        (updStep now lf uf store stats row).2.2.filterMap lookupKey
          = [(stats.totalProcessed + 1, email)]) := by
  constructor
  · intro hm
    rcases hm with hm | hm
    · unfold updStep
      rw [hm]
    · unfold updStep
      rw [hm]
      simp
  · intro email hm hne
    unfold updStep
    rw [hm]
    simp only [hne, if_false]
    cases hl : lf (stats.totalProcessed + 1)
    · simp only [Bool.false_eq_true, if_false]
      cases hf : findOne store email
      · simp [lookupKey]
      · rename_i d
        simp only []
        cases hu : uf (stats.totalProcessed + 1)
        · simp only [Bool.false_eq_true, if_false]
          by_cases hd : applySet (buildUpdateDoc now row) d = d
          · simp [hd, lookupKey]
          · simp [hd, lookupKey]
        · simp [lookupKey]
    · simp [lookupKey]

/-- Closed instance of C6: a row whose email cell is only spaces is counted
as an error with no storage call, and a valid mixed-case row issues exactly
one lookup keyed by the lowercased trimmed email. -/
theorem c6_validate_then_single_lookup_witness :
    (updStep 0 (fun _ => false) (fun _ => false) [] ⟨0, 0, 0, 0, 0⟩
        ⟨some " ", none, none⟩
      = ([], ⟨1, 0, 0, 1, 0⟩, []))
    ∧ (updStep 0 (fun _ => false) (fun _ => false) [] ⟨0, 0, 0, 0, 0⟩
          ⟨some " A@X.com ", none, none⟩).2.2.filterMap lookupKey
        = [(1, "a@x.com")] :=
  ⟨(c6_validate_then_single_lookup 0 (fun _ => false) (fun _ => false) []
      ⟨0, 0, 0, 0, 0⟩ ⟨some " ", none, none⟩).1 (Or.inr (by decide)),
    (c6_validate_then_single_lookup 0 (fun _ => false) (fun _ => false) []
      ⟨0, 0, 0, 0, 0⟩ ⟨some " A@X.com ", none, none⟩).2 "a@x.com"
      (by decide) (by decide)⟩

/-- Claim C7: per-record errors are caught at the record boundary and never
escape the batch loop.  In the update-variant every run processes all its
rows (totalProcessed equals the input length whatever faults are
injected), a row whose lookup throws is counted in errorRecords, and a row
whose update throws is counted in errorRecords; in the enrichment-variant
the rows entering processing are exactly the in-range positions whatever
faults are injected, so a faulted record never stops the remaining ones. -/
theorem c7_record_boundary_isolation (now sr er : Nat)
    (lf uf af insf elf : Nat → Bool) (apiData : Nat → String)
    (rows : List InputRow) (store store2 store3 : Store) (stats : UpdStats)
    (row : InputRow) (email : String) (d : StoredDoc)
    (hmail : normEmailUpd row = some email) (hne : email ≠ "") :
    ((updateStoreInfo now lf uf rows store).2.1.totalProcessed = rows.length)
    ∧ (lf (stats.totalProcessed + 1) = true →
        updStep now lf uf store2 stats row
          = (store2,
              ⟨stats.totalProcessed + 1, stats.updatedRecords,
                stats.notFoundRecords, stats.errorRecords + 1,
                stats.noopRecords⟩,
              [.lookup (stats.totalProcessed + 1) email]))
    ∧ (lf (stats.totalProcessed + 1) = false →
        findOne store2 email = some d →
        uf (stats.totalProcessed + 1) = true →
        updStep now lf uf store2 stats row
          = (store2,
              ⟨stats.totalProcessed + 1, stats.updatedRecords,
                stats.notFoundRecords, stats.errorRecords + 1,
                stats.noopRecords⟩,
              [.lookup (stats.totalProcessed + 1) email,
                .update (stats.totalProcessed + 1) email
                  (buildUpdateDoc now row)]))
    ∧ ((processEmails sr er now elf af insf apiData rows store3).2.filterMap
          rowStartIdx
        = (List.range' 1 rows.length).filter (inRange sr er)) := by
  refine ⟨?_, ?_, ?_, ?_⟩
  · have h := updRun_counts now lf uf rows store ⟨0, 0, 0, 0, 0⟩
    unfold updateStoreInfo
    simp only [] at h
    omega
  · intro hl
    unfold updStep
    rw [hmail]
    simp only [hne, if_false, hl, if_true]
  · intro hl hf hu
    unfold updStep
    rw [hmail]
    simp only [hne, if_false, hl, Bool.false_eq_true, if_false, hf, hu, if_true]
  · exact enrGo_rowStarts sr er now elf af insf apiData rows 0 store3

/-- Closed instance of C7: with a lookup fault injected on every row, a
two-row update run still processes both rows, the faulted first row is
counted as an error, and an enrichment run over the same rows with every
insert faulted still enters both rows. -/
theorem c7_record_boundary_isolation_witness :
    ((updateStoreInfo 0 (fun _ => true) (fun _ => false)
        [⟨some "a", none, none⟩, ⟨some "b", none, none⟩] []).2.1.totalProcessed
      = 2)
    ∧ ((fun _ : Nat => true) 1 = true →
        updStep 0 (fun _ => true) (fun _ => false) [] ⟨0, 0, 0, 0, 0⟩
            ⟨some "a", none, none⟩
          = ([], ⟨1, 0, 0, 1, 0⟩, [.lookup 1 "a"]))
    ∧ ((fun _ : Nat => true) 1 = false →
        findOne [] "a" = some c2Doc →
        (fun _ : Nat => false) 1 = true →
        updStep 0 (fun _ => true) (fun _ => false) [] ⟨0, 0, 0, 0, 0⟩
            ⟨some "a", none, none⟩
          = ([], ⟨1, 0, 0, 1, 0⟩,
              [.lookup 1 "a", .update 1 "a"
                (buildUpdateDoc 0 ⟨some "a", none, none⟩)]))
    ∧ ((processEmails 1 400 0 (fun _ => false) (fun _ => false)
          (fun _ => true) (fun _ => "P")
          [⟨some "a", none, none⟩, ⟨some "b", none, none⟩] []).2.filterMap
            rowStartIdx
        = (List.range' 1
            ([⟨some "a", none, none⟩,
              ⟨some "b", none, none⟩] : List InputRow).length).filter
              (inRange 1 400)) :=
  c7_record_boundary_isolation 0 1 400 (fun _ => true) (fun _ => false)
    (fun _ => false) (fun _ => true) (fun _ => false) (fun _ => "P")
    [⟨some "a", none, none⟩, ⟨some "b", none, none⟩] [] [] []
    ⟨0, 0, 0, 0, 0⟩ ⟨some "a", none, none⟩ "a" c2Doc (by decide) (by decide)

/-- Rows of the C8 counterexample: two fresh emails. -/
def c8Rows : List InputRow := [⟨some "b", none, none⟩, ⟨some "c", none, none⟩]

/-- Claim C8, as stated, is false on the code: when the API call of row 1
completes successfully but the following insertOne throws (insert fault
injected on every row), the catch skips the setTimeout, so row 2 begins
with no delay event anywhere in the trace; the trace shows the completed
call of row 1, the start of row 2, and no delay. -/
theorem c8_counterexample :
    (processEmails 1 400 0 (fun _ => false) (fun _ => false) (fun _ => true)
        (fun _ => "P") c8Rows []).2
      = [.rowStart 1, .lookup 1 "b", .apiCall 1 "b", .insert 1 "b",
          .rowStart 2, .lookup 2 "c", .apiCall 2 "c", .insert 2 "c"]
    ∧ EnrEvent.delay 1
        ∉ (processEmails 1 400 0 (fun _ => false) (fun _ => false)
            (fun _ => true) (fun _ => "P") c8Rows []).2
    ∧ EnrEvent.delay 2
        ∉ (processEmails 1 400 0 (fun _ => false) (fun _ => false)
            (fun _ => true) (fun _ => "P") c8Rows []).2 := by
  decide

/-- Claim C8 (amended): in the enrichment-variant, the fixed one-time-unit
delay runs after a record whose API call and subsequent insert both
succeed, before the next record begins; when the insert throws after a
completed call, the per-record catch skips the delay, so the events of
that record end at the attempted insert with no delay. -/
theorem c8_delay_on_success (now : Nat) (lf af insf : Nat → Bool)
    (apiData : Nat → String) (i : Nat) (store : Store) (row : InputRow)
    (s : String)
    (hmail : row.customer_email = some s) (hlf : lf i = false)
    (hfind : findOne store (jsToLower s) = none) (haf : af i = false) :
    (insf i = false →
      (enrStep now lf af insf apiData i store row).2
        = [.rowStart i, .lookup i (jsToLower s), .apiCall i (jsToLower s),
            .insert i (jsToLower s), .delay i])
    ∧ (insf i = true →
      (enrStep now lf af insf apiData i store row).2
        = [.rowStart i, .lookup i (jsToLower s), .apiCall i (jsToLower s),
            .insert i (jsToLower s)]) := by
  constructor
  · intro hi
    unfold enrStep
    rw [hmail]
    simp only [hlf, Bool.false_eq_true, if_false, hfind, haf, hi]
  · intro hi
    unfold enrStep
    rw [hmail]
    simp only [hlf, Bool.false_eq_true, if_false, hfind, haf, hi, if_true]

/-- Closed instance of the amended C8: the same fresh email once with the
insert succeeding (trace ends with the delay) and once with the insert
faulted (trace ends at the attempted insert). -/
theorem c8_delay_on_success_witness :
    ((enrStep 0 (fun _ => false) (fun _ => false) (fun _ => false)
          (fun _ => "P") 1 [] ⟨some "b", none, none⟩).2
        = [.rowStart 1, .lookup 1 (jsToLower "b"), .apiCall 1 (jsToLower "b"),
            .insert 1 (jsToLower "b"), .delay 1])
    ∧ ((enrStep 0 (fun _ => false) (fun _ => false) (fun _ => true)
          (fun _ => "P") 1 [] ⟨some "b", none, none⟩).2
        = [.rowStart 1, .lookup 1 (jsToLower "b"), .apiCall 1 (jsToLower "b"),
            .insert 1 (jsToLower "b")]) :=
  ⟨(c8_delay_on_success 0 (fun _ => false) (fun _ => false) (fun _ => false)
      (fun _ => "P") 1 [] ⟨some "b", none, none⟩ "b" rfl rfl rfl rfl).1 rfl,
    (c8_delay_on_success 0 (fun _ => false) (fun _ => false) (fun _ => true)
      (fun _ => "P") 1 [] ⟨some "b", none, none⟩ "b" rfl rfl rfl rfl).2 rfl⟩

/-- Claim C9: the coverage percentage of verifyStoreInfo is guarded: when
the collection is empty (totalRecords = 0) the division is never reached
and the report carries no coverage figure (none) instead of NaN or a
crash. -/
theorem c9_coverage_guard (store : Store) (h : store.length = 0) :
    (verifyStoreInfo store).2.2 = none := by
  have hstore : store = [] := List.length_eq_zero.mp h
  subst hstore
  rfl

/-- Closed instance of C9 on the empty collection. -/
theorem c9_coverage_guard_witness : (verifyStoreInfo []).2.2 = none :=
  c9_coverage_guard [] rfl

/-- Claim C10: in the enrichment-variant, an in-range row with no
customer_email field throws inside the per-record try (toLowerCase of
undefined); the catch swallows it, so the row contributes only its entry
into processing (no lookup, no API call, no insert, store unchanged) and
the loop continues with the remaining rows. -/
theorem c10_absent_email_caught (sr er now : Nat) (lf af insf : Nat → Bool)
    (apiData : Nat → String) (i : Nat) (store : Store) (row : InputRow)
    (tl : List InputRow)
    (hmail : row.customer_email = none) :
    (enrStep now lf af insf apiData (i + 1) store row = (store, [.rowStart (i + 1)]))
    ∧ (inRange sr er (i + 1) = true →
        enrGo sr er now lf af insf apiData i (row :: tl) store
          = ((enrGo sr er now lf af insf apiData (i + 1) tl store).1,
              .rowStart (i + 1)
                :: (enrGo sr er now lf af insf apiData (i + 1) tl store).2)) := by
  have hstep : enrStep now lf af insf apiData (i + 1) store row
      = (store, [.rowStart (i + 1)]) := by
    unfold enrStep
    rw [hmail]
  refine ⟨hstep, ?_⟩
  intro hr
  simp only [enrGo]
  rw [if_pos hr, hstep]
  simp

/-- Closed instance of C10: a first row with no customer_email contributes
only its rowStart, and the run continues into the second row, which is
fully enriched. -/
theorem c10_absent_email_caught_witness :
    (enrStep 0 (fun _ => false) (fun _ => false) (fun _ => false)
        (fun _ => "P") 1 [] ⟨none, none, none⟩ = ([], [.rowStart 1]))
    ∧ (enrGo 1 400 0 (fun _ => false) (fun _ => false) (fun _ => false)
          (fun _ => "P") 0 [⟨none, none, none⟩, ⟨some "c", none, none⟩] []
        = ((enrGo 1 400 0 (fun _ => false) (fun _ => false) (fun _ => false)
              (fun _ => "P") 1 [⟨some "c", none, none⟩] []).1,
            .rowStart 1
              :: (enrGo 1 400 0 (fun _ => false) (fun _ => false)
                  (fun _ => false) (fun _ => "P") 1
                  [⟨some "c", none, none⟩] []).2)) :=
  ⟨(c10_absent_email_caught 1 400 0 (fun _ => false) (fun _ => false)
      (fun _ => false) (fun _ => "P") 0 [] ⟨none, none, none⟩
      [⟨some "c", none, none⟩] rfl).1,
    (c10_absent_email_caught 1 400 0 (fun _ => false) (fun _ => false)
      (fun _ => false) (fun _ => "P") 0 [] ⟨none, none, none⟩
      [⟨some "c", none, none⟩] rfl).2 rfl⟩

end DataAxle
